import Mathlib

/-
Shallow embedding of the faststore upload broker (package `filestore`),
checked against its natural-language specification.

The embedding follows the source:
  * `FileData`, `Store`            — src/src/filestore/structs.py
  * `FastStore.store` setter/getter — src/src/filestore/main.py (lines 217-255)
  * `FastStore.__call__` admission pipeline — src/src/filestore/main.py (lines 154-199)
  * `LocalEngine.upload` / `LocalEngine._upload`
                                   — src/src/filestore/storage_engines/local_engine.py
  * `MemoryEngine.upload` / `MemoryEngine._upload`
                                   — src/src/filestore/storage_engines/memory_engine.py

Python form values are either plain strings or upload-file objects; file
reads and writes are effectful, so each modelled file carries the result
its read and its write would produce (`Except` values), and the engine
code is translated as pure functions over those results.  Exceptions that
cross a boundary in Python are translated to `Except FileStoreError`.
-/

set_option autoImplicit false

namespace FastStoreModel

/-- Result record of one file storage operation; mirrors the pydantic model
`FileData` in structs.py (default values included).  The raw byte payload of
the memory engine is modelled as `Option (List Nat)` (`None` default). -/
structure FileData where
  path : String := ""
  url : String := ""
  status : Bool := true
  content_type : String := ""
  filename : String := ""
  size : Nat := 0
  file : Option (List Nat) := none
  field_name : String := ""
  error : String := ""
  message : String := ""
deriving Repr, DecidableEq

/-- The `FileStoreError` exception of exceptions.py, reduced to its message. -/
structure FileStoreError where
  msg : String
deriving Repr, DecidableEq

/-- A `defaultdict(list)` keyed by field name, as an association list with
unique keys; a missing key reads as `[]`. -/
abbrev Buckets := List (String × List FileData)

/-- Read a bucket; missing keys give the empty list (defaultdict behaviour). -/
def getBucket (b : Buckets) (k : String) : List FileData :=
  match b with
  | [] => []
  | (k₁, vs) :: rest => if k₁ = k then vs else getBucket rest k

/-- `b[k].append(v)` on a `defaultdict(list)`. -/
def appendBucket (b : Buckets) (k : String) (v : FileData) : Buckets :=
  match b with
  | [] => [(k, [v])]
  | (k₁, vs) :: rest =>
      if k₁ = k then (k₁, vs ++ [v]) :: rest else (k₁, vs) :: appendBucket rest k v

/-- `sum(len(files) for files in buckets.values())`. -/
def bucketsTotal (b : Buckets) : Nat :=
  (b.map (fun p => p.2.length)).sum

/-- The request-level report; mirrors the pydantic model `Store` in
structs.py with its defaults. -/
structure Store where
  file : Option FileData := none
  files : Buckets := []
  failed : Buckets := []
  error : String := ""
  message : String := ""
  status : Bool := true
deriving Repr, DecidableEq

/-- A value assigned to the `store` property.  The setter type-checks its
argument (`isinstance(value, FileData)`); a list of `FileData` (as returned
by an engine's multi-file branch) or anything else is not a `FileData` and
is ignored by the setter. -/
inductive SetterValue where
  | fileData (fd : FileData)
  | listData (fds : List FileData)
  | other
deriving Repr

/-- The `store` setter of `FastStore` (main.py lines 231-255): a `FileData`
is appended to `files[field_name]` when `status` is true, else to
`failed[field_name]`; when exactly one file was processed a successful
outcome is additionally aliased into `store.file`; non-`FileData` values
are logged and dropped. -/
def storeSet (file_count : Nat) (s : Store) (v : SetterValue) : Store :=
  match v with
  | .fileData fd =>
      if file_count = 1 then
        if fd.status then
          { s with file := some fd, files := appendBucket s.files fd.field_name fd }
        else
          { s with failed := appendBucket s.failed fd.field_name fd }
      else
        if fd.status then
          { s with files := appendBucket s.files fd.field_name fd }
        else
          { s with failed := appendBucket s.failed fd.field_name fd }
  | _ => s

/-- The `store` getter of `FastStore` (main.py lines 217-229): recomputes the
summary `message` and `error` strings from the bucket totals and returns the
store.  It does not touch `status`. -/
def storeGet (s : Store) : Store :=
  let success := bucketsTotal s.files
  let failed := bucketsTotal s.failed
  { s with
    message := if success ≠ 0 then toString success ++ " files uploaded successfully" else "",
    error := if failed ≠ 0 then toString failed ++ " file(s) not uploaded" else "" }

deriving instance DecidableEq for Except

/-- An upload-file object as the engines see it: identity data plus the
results its effectful `read()` and the destination write would produce. -/
structure UFile where
  filename : String := ""
  content_type : String := ""
  size : Nat := 0
  readResult : Except String (List Nat) := .ok []
  writeResult : Except String Unit := .ok ()
deriving Repr, DecidableEq

/-- A value of a multipart form field: either a plain string or an
upload-file object. -/
inductive FormValue where
  | str (s : String)
  | file (f : UFile)
deriving Repr, DecidableEq

/-- `_file_filter` (main.py lines 22-23): true exactly for upload-file
objects with a truthy (non-empty) filename. -/
def _file_filter (v : FormValue) : Bool :=
  match v with
  | .str _ => false
  | .file f => f.filename ≠ ""

/-- The default config filter `file_filter` (main.py lines 26-38):
accepts everything. -/
def file_filter : FormValue → Bool := fun _ => true

/-- The relevant slice of the `Config` dict (structs.py): `none` means the
key is absent.  `filter` and `filename` are the hook slots; `background`
and `destination` are carried for the engines. -/
structure Config where
  filter : Option (FormValue → Bool) := none
  filename : Option (UFile → UFile) := none
  background : Bool := false
  destination : String := ""

/-- `{**global_config, **field_config}` restricted to the modelled keys:
a field-level key, when present, overrides the global one. -/
def mergeConfig (g f : Config) : Config :=
  { filter := f.filter <|> g.filter,
    filename := f.filename <|> g.filename,
    background := f.background || g.background,
    destination := if f.destination ≠ "" then f.destination else g.destination }

/-- A declared form field as handed to `FastStore` (a dict; `max_count`
may be absent, which `field.get('max_count', None)` reads as `None`). -/
structure FieldDecl where
  name : String
  max_count : Option Nat := none
  required : Bool := false
  config : Config := {}

/-- One admitted candidate: the per-file dict `{**field, 'file': ...}`
appended to `file_fields` in `__call__`. -/
structure FileFieldEntry where
  name : String
  max_count : Option Nat := none
  required : Bool := false
  config : Config := {}
  file : UFile := {}

/-- Python's slice `xs[:count]` where `count` may be `None`
(no truncation). -/
def takeOpt (n : Option Nat) {α : Type} (xs : List α) : List α :=
  match n with
  | none => xs
  | some k => xs.take k

/-- Whether one form value is admitted under an effective config:
`_file_filter(file) and _filter(req, form, name, file)` from `__call__`
line 182, with the configured filter defaulting to `file_filter`. -/
def admitted (cfg : Config) (v : FormValue) : Bool :=
  _file_filter v && (cfg.filter.getD file_filter) v

/-- The per-field part of `FastStore.__call__` (main.py lines 174-184):
truncate the submitted files to `max_count` (no cap when absent), merge the
config, keep each admitted file, and apply the rename hook to it. -/
def processField (g : Config) (form : String → List FormValue) (fd : FieldDecl) :
    List FileFieldEntry :=
  let cfg := mergeConfig g fd.config
  (takeOpt fd.max_count (form fd.name)).filterMap fun v =>
    if admitted cfg v then
      match v with
      | .file f =>
          some { name := fd.name, max_count := fd.max_count, required := fd.required,
                 config := cfg, file := (cfg.filename.getD id) f }
      | .str _ => none
    else none

/-- The dispatch-and-fold part of `FastStore.__call__` (main.py lines
186-199): if no file survives admission the store is replaced by
`Store(message='No files were uploaded')`; otherwise each entry's upload
outcome (abstracted as `engineUpload`, the value a subclass assigns to
`self.store`) is folded through the store setter with
`file_count = len(file_fields)`. -/
def runCall (fields : List FieldDecl) (g : Config) (form : String → List FormValue)
    (engineUpload : FileFieldEntry → SetterValue) : Store :=
  let entries := fields.flatMap (processField g form)
  if entries.isEmpty then { message := "No files were uploaded" }
  else (entries.map engineUpload).foldl (storeSet entries.length) {}

/-- `LocalEngine._upload` (local_engine.py lines 33-57): read the file and
write it to the resolved destination; any exception is caught and returned
as a failed `FileData` carrying the error string. -/
def localUploadOne (fieldName dest : String) (f : UFile) : FileData :=
  match f.readResult with
  | .error e => { field_name := fieldName, filename := f.filename, error := e, status := false }
  | .ok _ =>
      match f.writeResult with
      | .error e => { field_name := fieldName, filename := f.filename, error := e, status := false }
      | .ok _ =>
          { size := f.size, filename := f.filename, content_type := f.content_type,
            path := dest ++ "/" ++ f.filename, field_name := fieldName,
            message := f.filename ++ " was saved successfully for field " ++ fieldName,
            status := true }

/-- What an engine `upload` returns normally: a single `FileData` or a list
of them (multi-file branch). -/
inductive UploadResult where
  | single (fd : FileData)
  | multiple (fds : List FileData)
deriving Repr, DecidableEq

/-- `LocalEngine.upload` (local_engine.py lines 59-100): one submitted file
is uploaded directly (or scheduled, under `background`); several are fanned
out through `_upload` with `return_exceptions=True` and collected; zero
files raises `FileStoreError` out of the engine. -/
def localEngineUpload (fieldName : String) (background : Bool) (dest : String)
    (files : List UFile) : Except FileStoreError UploadResult :=
  match files with
  | [] => .error ⟨"No file found for field " ++ fieldName⟩
  | [f] =>
      if background then
        .ok (.single { size := f.size, filename := f.filename, content_type := f.content_type,
                       status := true, field_name := fieldName,
                       message := f.filename ++ " is saving in the background" })
      else
        .ok (.single (localUploadOne fieldName dest f))
  | fs =>
      if background then
        .ok (.single { status := true, field_name := fieldName,
                       message := toString fs.length ++
                         " are saving in the background for field " ++ fieldName })
      else
        .ok (.multiple (fs.map (localUploadOne fieldName dest)))

/-- `MemoryEngine._upload` (memory_engine.py lines 17-35): read the file
into memory; a read failure is caught and returned as a failed `FileData`. -/
def memoryUploadOne (fieldName : String) (f : UFile) : FileData :=
  match f.readResult with
  | .error e => { field_name := fieldName, filename := f.filename, error := e, status := false }
  | .ok obj =>
      { size := f.size, filename := f.filename, content_type := f.content_type,
        field_name := fieldName, file := some obj,
        message := f.filename ++ " saved successfully", status := true }

/-- `MemoryEngine.upload` (memory_engine.py lines 37-57): truncates the
submitted files to `max_count`, then behaves like the local engine's
dispatch; zero remaining files raises `FileStoreError`. -/
def memoryEngineUpload (fieldName : String) (maxCount : Nat) (files : List UFile) :
    Except FileStoreError UploadResult :=
  match files.take maxCount with
  | [] => .error ⟨"No file found for field " ++ fieldName⟩
  | [f] => .ok (.single (memoryUploadOne fieldName f))
  | fs => .ok (.multiple (fs.map (memoryUploadOne fieldName)))

/-- Successive `self.store = file_data` assignments for a list of
outcomes. -/
def foldOutcomes (fc : Nat) (s : Store) (outs : List FileData) : Store :=
  outs.foldl (fun st v => storeSet fc st (.fileData v)) s

/-- Total number of outcomes recorded in a store, across both bucket maps. -/
def storeTotal (s : Store) : Nat :=
  bucketsTotal s.files + bucketsTotal s.failed

/-! Concrete data used to evaluate the model on explicit inputs. -/

/-- A filter that rejects every form value. -/
def rejectAllFilter : FormValue → Bool := fun _ => false

/-- A filter that accepts every form value. -/
def acceptAllFilter : FormValue → Bool := fun _ => true

/-- A global config whose user-supplied filter rejects everything. -/
def gCfg : Config := { filter := some rejectAllFilter }

/-- A field-level config whose filter accepts everything. -/
def fCfg : Config := { filter := some acceptAllFilter }

/-- A plain text file whose read and write both succeed. -/
def goodFile : UFile :=
  { filename := "a.txt", content_type := "text/plain", size := 3, readResult := .ok [97, 98, 99] }

/-- A second healthy file. -/
def goodFile2 : UFile :=
  { filename := "c.png", content_type := "image/png", size := 2, readResult := .ok [1, 2] }

/-- A file whose `read()` raises. -/
def badFile : UFile :=
  { filename := "b.txt", content_type := "text/plain", size := 5,
    readResult := .error "read failed" }

/-- A declared field `book` without a `max_count` key. -/
def fdNoCount : FieldDecl := { name := "book" }

/-- A declared required field `book`. -/
def bookFieldRequired : FieldDecl := { name := "book", required := true }

/-- A declared field `book` with `max_count = 1`. -/
def bookField : FieldDecl := { name := "book", max_count := some 1, required := true }

/-- A declared optional field `cover`. -/
def coverField : FieldDecl := { name := "cover" }

/-- A form carrying two healthy files for every field name. -/
def twoFileForm : String → List FormValue := fun _ => [.file goodFile, .file goodFile2]

/-- A form carrying one healthy file for every field name. -/
def oneFileForm : String → List FormValue := fun _ => [.file goodFile]

/-- A form with no files at all. -/
def emptyForm : String → List FormValue := fun _ => []

/-- A form carrying a file only for the `cover` field. -/
def coverOnlyForm : String → List FormValue :=
  fun k => if k = "cover" then [.file goodFile2] else []

/-- A subclass upload that fails every entry with a fixed error. -/
def failingUpload : FileFieldEntry → SetterValue :=
  fun e => .fileData { field_name := e.name, filename := e.file.filename,
                       error := "disk full", status := false }

/-- A subclass upload that succeeds on every entry. -/
def succeedUpload : FileFieldEntry → SetterValue :=
  fun e => .fileData { field_name := e.name, filename := e.file.filename,
                       message := "ok", status := true }

/-- A successful outcome for the `book` field. -/
def okOutcome : FileData := { field_name := "book", filename := "a.txt", status := true }

/-- A failed outcome for the `book` field. -/
def badOutcome : FileData :=
  { field_name := "book", filename := "b.txt", error := "disk full", status := false }

/-! Helper lemmas about buckets and the store setter. -/

theorem getBucket_appendBucket_same (b : Buckets) (k : String) (v : FileData) :
    getBucket (appendBucket b k v) k = getBucket b k ++ [v] := by
  induction b with
  | nil => simp [appendBucket, getBucket]
  | cons hd tl ih =>
      obtain ⟨k₁, vs⟩ := hd
      by_cases h : k₁ = k
      · simp [appendBucket, getBucket, h]
      · simp [appendBucket, getBucket, h, ih]

theorem getBucket_appendBucket_ne (b : Buckets) (k k₂ : String) (v : FileData)
    (h : k₂ ≠ k) :
    getBucket (appendBucket b k v) k₂ = getBucket b k₂ := by
  induction b with
  | nil => simp [appendBucket, getBucket, Ne.symm h]
  | cons hd tl ih =>
      obtain ⟨k₁, vs⟩ := hd
      by_cases h1 : k₁ = k
      · have h2 : k₁ ≠ k₂ := by
          rw [h1]
          exact Ne.symm h
        simp [appendBucket, getBucket, h1, h2, Ne.symm h]
      · by_cases h2 : k₁ = k₂ <;> simp [appendBucket, getBucket, h1, h2, ih, h]

theorem bucketsTotal_appendBucket (b : Buckets) (k : String) (v : FileData) :
    bucketsTotal (appendBucket b k v) = bucketsTotal b + 1 := by
  induction b with
  | nil => simp [appendBucket, bucketsTotal]
  | cons hd tl ih =>
      obtain ⟨k₁, vs⟩ := hd
      by_cases h : k₁ = k
      · simp [appendBucket, bucketsTotal, h]
        omega
      · simp only [appendBucket, if_neg h, bucketsTotal, List.map_cons, List.sum_cons] at *
        omega

theorem storeSet_fileData_files (fc : Nat) (s : Store) (v : FileData) :
    (storeSet fc s (.fileData v)).files =
      if v.status then appendBucket s.files v.field_name v else s.files := by
  by_cases h1 : fc = 1 <;> by_cases h2 : v.status = true <;>
    simp [storeSet, h1, h2]

theorem storeSet_fileData_failed (fc : Nat) (s : Store) (v : FileData) :
    (storeSet fc s (.fileData v)).failed =
      if v.status then s.failed else appendBucket s.failed v.field_name v := by
  by_cases h1 : fc = 1 <;> by_cases h2 : v.status = true <;>
    simp [storeSet, h1, h2]

theorem storeSet_fileData_file (fc : Nat) (s : Store) (v : FileData) :
    (storeSet fc s (.fileData v)).file =
      if fc = 1 ∧ v.status then some v else s.file := by
  by_cases h1 : fc = 1 <;> by_cases h2 : v.status = true <;>
    simp [storeSet, h1, h2]

theorem getBucket_storeSet_files_length (fc : Nat) (s : Store) (v : FileData) (k : String) :
    (getBucket (storeSet fc s (.fileData v)).files k).length =
      (getBucket s.files k).length + (if v.status && v.field_name == k then 1 else 0) := by
  rw [storeSet_fileData_files]
  by_cases h1 : v.status = true
  · by_cases h2 : v.field_name = k
    · subst h2
      simp [h1, getBucket_appendBucket_same]
    · rw [if_pos h1, getBucket_appendBucket_ne _ _ _ _ (fun hh => h2 hh.symm)]
      simp [h1, h2]
  · simp [h1]

theorem getBucket_storeSet_failed_length (fc : Nat) (s : Store) (v : FileData) (k : String) :
    (getBucket (storeSet fc s (.fileData v)).failed k).length =
      (getBucket s.failed k).length + (if !v.status && v.field_name == k then 1 else 0) := by
  rw [storeSet_fileData_failed]
  by_cases h1 : v.status = true
  · simp [h1]
  · by_cases h2 : v.field_name = k
    · subst h2
      simp [h1, getBucket_appendBucket_same]
    · rw [if_neg h1, getBucket_appendBucket_ne _ _ _ _ (fun hh => h2 hh.symm)]
      simp [h1, h2]

theorem foldOutcomes_files_length (fc : Nat) (s : Store) (outs : List FileData) (k : String) :
    (getBucket (foldOutcomes fc s outs).files k).length =
      (getBucket s.files k).length +
        (outs.filter (fun v => v.status && v.field_name == k)).length := by
  induction outs generalizing s with
  | nil => simp [foldOutcomes]
  | cons o rest ih =>
      have hstep : foldOutcomes fc s (o :: rest) =
          foldOutcomes fc (storeSet fc s (.fileData o)) rest := rfl
      rw [hstep, ih, getBucket_storeSet_files_length]
      by_cases h : (o.status && o.field_name == k) = true <;> simp [h] <;> omega

theorem foldOutcomes_failed_length (fc : Nat) (s : Store) (outs : List FileData) (k : String) :
    (getBucket (foldOutcomes fc s outs).failed k).length =
      (getBucket s.failed k).length +
        (outs.filter (fun v => !v.status && v.field_name == k)).length := by
  induction outs generalizing s with
  | nil => simp [foldOutcomes]
  | cons o rest ih =>
      have hstep : foldOutcomes fc s (o :: rest) =
          foldOutcomes fc (storeSet fc s (.fileData o)) rest := rfl
      rw [hstep, ih, getBucket_storeSet_failed_length]
      by_cases h : (!o.status && o.field_name == k) = true <;> simp [h] <;> omega

theorem storeSet_total_le (fc : Nat) (s : Store) (v : SetterValue) :
    storeTotal (storeSet fc s v) ≤ storeTotal s + 1 := by
  match v with
  | .fileData fd =>
      unfold storeTotal
      rw [storeSet_fileData_files, storeSet_fileData_failed]
      by_cases h : fd.status = true <;> simp [h, bucketsTotal_appendBucket] <;> omega
  | .listData fds => exact Nat.le_succ_of_le (Nat.le_refl _)
  | .other => exact Nat.le_succ_of_le (Nat.le_refl _)

theorem foldl_storeSet_total_le (fc : Nat) (s : Store) (vs : List SetterValue) :
    storeTotal (vs.foldl (storeSet fc) s) ≤ storeTotal s + vs.length := by
  induction vs generalizing s with
  | nil => simp
  | cons v rest ih =>
      calc storeTotal ((v :: rest).foldl (storeSet fc) s)
          = storeTotal (rest.foldl (storeSet fc) (storeSet fc s v)) := rfl
        _ ≤ storeTotal (storeSet fc s v) + rest.length := ih _
        _ ≤ storeTotal s + 1 + rest.length :=
            Nat.add_le_add_right (storeSet_total_le fc s v) _
        _ = storeTotal s + (v :: rest).length := by simp; omega

theorem localUploadOne_field_name (n d : String) (f : UFile) :
    (localUploadOne n d f).field_name = n := by
  unfold localUploadOne
  cases f.readResult with
  | error e => rfl
  | ok bs =>
      cases f.writeResult with
      | error e => rfl
      | ok u => rfl

/-! Claim theorems. -/

/-- C1: folding a `FileData` outcome that is not yet recorded into the
report puts it in exactly one of `files[field_name]` / `failed[field_name]`
— in `files` iff its status is true, in `failed` iff false — exactly once,
and leaves every other field's buckets unchanged, for any processed file
count. -/
theorem c1_bucket_exclusivity (fc : Nat) (s : Store) (v : FileData)
    (hfiles : (getBucket s.files v.field_name).count v = 0)
    (hfailed : (getBucket s.failed v.field_name).count v = 0) :
    ((getBucket (storeSet fc s (.fileData v)).files v.field_name).count v
        = if v.status then 1 else 0) ∧
    ((getBucket (storeSet fc s (.fileData v)).failed v.field_name).count v
        = if v.status then 0 else 1) ∧
    ∀ k, k ≠ v.field_name →
      getBucket (storeSet fc s (.fileData v)).files k = getBucket s.files k ∧
      getBucket (storeSet fc s (.fileData v)).failed k = getBucket s.failed k := by
  rw [storeSet_fileData_files] at *
  rw [storeSet_fileData_failed] at *
  by_cases h : v.status = true
  · refine ⟨?_, ?_, ?_⟩
    · simp [h, getBucket_appendBucket_same, hfiles]
    · simp [h, hfailed]
    · intro k hk
      simp [h, getBucket_appendBucket_ne _ _ _ _ hk]
  · refine ⟨?_, ?_, ?_⟩
    · simp [h, hfiles]
    · simp [h, getBucket_appendBucket_same, hfailed]
    · intro k hk
      simp [h, getBucket_appendBucket_ne _ _ _ _ hk]

/-- C1 witness: a fresh successful outcome folded into the empty store with
two processed files lands exactly once in its `files` bucket. -/
theorem c1_witness :
    ((getBucket ({} : Store).files okOutcome.field_name).count okOutcome = 0) ∧
    ((getBucket ({} : Store).failed okOutcome.field_name).count okOutcome = 0) ∧
    ((getBucket (storeSet 2 {} (.fileData okOutcome)).files okOutcome.field_name).count okOutcome
        = if okOutcome.status then 1 else 0) :=
  ⟨by decide, by decide,
    (c1_bucket_exclusivity 2 {} okOutcome (by decide) (by decide)).1⟩

/-- C2 counterexample: on an empty candidate list both engines' `upload`
raise a `FileStoreError` past the engine boundary instead of returning a
failed `FileData`, refuting "the engine's upload never raises an exception
past its boundary". -/
theorem c2_counterexample :
    localEngineUpload "book" false "uploads" [] =
      .error ⟨"No file found for field book"⟩ ∧
    memoryEngineUpload "book" 1 [] = .error ⟨"No file found for field book"⟩ := by
  exact ⟨rfl, rfl⟩

/-- C2 amended: per-file transfer errors (read or write failures) are
caught inside the engines' per-file `_upload` and returned as a `FileData`
with `status=false` carrying the error, and for a non-empty candidate list
`upload` returns normally; but on an empty candidate list `upload` raises
`FileStoreError` ("No file found for field …") past the engine boundary to
the orchestrator. -/
theorem c2_amended (fieldName dest : String) (bg : Bool) (fs : List UFile)
    (h : fs ≠ []) :
    (∃ r, localEngineUpload fieldName bg dest fs = .ok r) ∧
    localEngineUpload fieldName bg dest [] =
      .error ⟨"No file found for field " ++ fieldName⟩ ∧
    memoryEngineUpload fieldName 1 [] =
      .error ⟨"No file found for field " ++ fieldName⟩ ∧
    (∀ (f : UFile) (e : String), f.readResult = .error e →
      localUploadOne fieldName dest f =
        { field_name := fieldName, filename := f.filename, error := e, status := false } ∧
      memoryUploadOne fieldName f =
        { field_name := fieldName, filename := f.filename, error := e, status := false }) ∧
    (∀ (f : UFile) (bs : List Nat) (e : String),
      f.readResult = .ok bs → f.writeResult = .error e →
      localUploadOne fieldName dest f =
        { field_name := fieldName, filename := f.filename, error := e, status := false }) := by
  refine ⟨?_, rfl, rfl, ?_, ?_⟩
  · match fs with
    | [] => exact absurd rfl h
    | [f] =>
        by_cases hb : bg = true <;> simp [localEngineUpload, hb]
    | f₁ :: f₂ :: rest =>
        by_cases hb : bg = true <;> simp [localEngineUpload, hb]
  · intro f e hf
    constructor
    · simp [localUploadOne, hf]
    · simp [memoryUploadOne, hf]
  · intro f bs e h1 h2
    simp [localUploadOne, h1, h2]

/-- C2 witness: a singleton candidate list containing a file whose read
fails is accepted by the engine boundary (no exception) and its failure is
contained in the returned outcome. -/
theorem c2_witness :
    ([badFile] : List UFile) ≠ [] ∧
    (∃ r, localEngineUpload "book" false "uploads" [badFile] = .ok r) :=
  ⟨by decide, (c2_amended "book" "uploads" false [badFile] (by decide)).1⟩

/-- C3 counterexample: a report produced by the orchestrator in which one
file failed has `error = "1 file(s) not uploaded"` but `status` is still
`true`, refuting `status = (M == 0)`. -/
theorem c3_counterexample :
    bucketsTotal (runCall [bookField] {} oneFileForm failingUpload).failed = 1 ∧
    (storeGet (runCall [bookField] {} oneFileForm failingUpload)).error =
      "1 file(s) not uploaded" ∧
    (storeGet (runCall [bookField] {} oneFileForm failingUpload)).status = true := by
  exact ⟨rfl, rfl, rfl⟩

/-- C3 amended: the getter derives `message` and `error` from the bucket
totals exactly as claimed, but it does not derive `status`: the returned
report keeps the status the store already had (its default is `true`, even
when failures were folded in). -/
theorem c3_amended (s : Store) :
    (storeGet s).message =
      (if 0 < bucketsTotal s.files
        then toString (bucketsTotal s.files) ++ " files uploaded successfully" else "") ∧
    (storeGet s).error =
      (if 0 < bucketsTotal s.failed
        then toString (bucketsTotal s.failed) ++ " file(s) not uploaded" else "") ∧
    (storeGet s).status = s.status := by
  refine ⟨?_, ?_, rfl⟩ <;> simp [storeGet, Nat.pos_iff_ne_zero]

/-- C4 counterexample: with a global filter that rejects `a.txt` and a
field-level filter that accepts it, the file IS admitted under the merged
config — the global filter's rejection is not applied, refuting "a file
rejected by the global filter is not admitted". -/
theorem c4_counterexample :
    gCfg.filter = some rejectAllFilter ∧
    rejectAllFilter (.file goodFile) = false ∧
    fCfg.filter = some acceptAllFilter ∧
    admitted (mergeConfig gCfg fCfg) (.file goodFile) = true := by
  exact ⟨rfl, rfl, rfl, rfl⟩

/-- C4 amended: the config merge is a per-key dict override, so a
field-level `filter` replaces the global one rather than being conjoined
with it; the effective admission predicate is the baseline `_file_filter`
conjoined with the field-level filter alone. -/
theorem c4_amended (g f : Config) (φ : FormValue → Bool) (hf : f.filter = some φ)
    (v : FormValue) :
    (mergeConfig g f).filter = some φ ∧
    admitted (mergeConfig g f) v = (_file_filter v && φ v) := by
  constructor
  · simp [mergeConfig, hf]
  · simp [admitted, mergeConfig, hf]

/-- C4 witness: instantiating the amended law at the accept-all field
filter over the reject-all global filter. -/
theorem c4_witness :
    fCfg.filter = some acceptAllFilter ∧
    admitted (mergeConfig gCfg fCfg) (.file goodFile) =
      (_file_filter (.file goodFile) && acceptAllFilter (.file goodFile)) :=
  ⟨rfl, (c4_amended gCfg fCfg acceptAllFilter rfl (.file goodFile)).2⟩

/-- C5 counterexample: a field declared without `max_count` (the claim says
this defaults to a cap of 1) has both of two submitted files processed —
`field.get('max_count', None)` yields no truncation at all. -/
theorem c5_counterexample :
    fdNoCount.max_count = none ∧
    (twoFileForm fdNoCount.name).length = 2 ∧
    (takeOpt fdNoCount.max_count (twoFileForm fdNoCount.name)).length = 2 ∧
    (processField {} twoFileForm fdNoCount).length = 2 := by
  exact ⟨rfl, rfl, rfl, rfl⟩

/-- C5 amended: when `max_count` is specified as `c` and at least `c` files
are submitted, exactly the first `c` submitted files are candidates, at
most `c` entries (hence at most `c` folded outcomes) are produced for the
field, and the excess is dropped without any recorded outcome; when
`max_count` is unspecified there is no cap (it does not default to 1): the
whole submitted list is the candidate list. -/
theorem c5_amended (g : Config) (form : String → List FormValue) (fd : FieldDecl)
    (u : FileFieldEntry → SetterValue) (c : Nat) (fd₂ : FieldDecl)
    (hc : fd.max_count = some c)
    (hmore : c ≤ (form fd.name).length)
    (h₂ : fd₂.max_count = none) :
    takeOpt fd.max_count (form fd.name) = (form fd.name).take c ∧
    (takeOpt fd.max_count (form fd.name)).length = c ∧
    (processField g form fd).length ≤ c ∧
    storeTotal (runCall [fd] g form u) ≤ c ∧
    takeOpt fd₂.max_count (form fd₂.name) = form fd₂.name := by
  have htake : takeOpt fd.max_count (form fd.name) = (form fd.name).take c := by
    rw [hc]
    rfl
  have hlen : (takeOpt fd.max_count (form fd.name)).length = c := by
    rw [htake, List.length_take]
    omega
  have hproc : (processField g form fd).length ≤ c := by
    calc (processField g form fd).length
        ≤ (takeOpt fd.max_count (form fd.name)).length :=
          List.length_filterMap_le _ _
      _ = c := hlen
  refine ⟨htake, hlen, hproc, ?_, by rw [h₂]; rfl⟩
  have hentries : ([fd].flatMap (processField g form)) = processField g form fd := by
    simp
  unfold runCall
  rw [hentries]
  by_cases he : (processField g form fd).isEmpty
  · simp [he, storeTotal, bucketsTotal]
  · simp only [he, if_false, Bool.false_eq_true]
    calc storeTotal (((processField g form fd).map u).foldl
            (storeSet (processField g form fd).length) {})
        ≤ storeTotal {} + ((processField g form fd).map u).length :=
          foldl_storeSet_total_le _ _ _
      _ = (processField g form fd).length := by
          simp [storeTotal, bucketsTotal]
      _ ≤ c := hproc

/-- C5 witness: the `book` field capped at 1 with two submitted files keeps
exactly the first candidate, while the uncapped field keeps both. -/
theorem c5_witness :
    bookField.max_count = some 1 ∧
    1 ≤ (twoFileForm bookField.name).length ∧
    fdNoCount.max_count = none ∧
    (takeOpt bookField.max_count (twoFileForm bookField.name)).length = 1 :=
  ⟨rfl, by decide, rfl,
    (c5_amended {} twoFileForm bookField failingUpload 1 fdNoCount rfl (by decide) rfl).2.1⟩

/-- C6 counterexample: a required field `book` with zero admitted files
(while a sibling field uploads successfully) yields a report in which
`failed["book"]` is empty and the status is still `true` — no synthetic
failed outcome with "No files were uploaded" is recorded for the field. -/
theorem c6_counterexample :
    bookFieldRequired.required = true ∧
    processField {} coverOnlyForm bookFieldRequired = [] ∧
    getBucket (runCall [bookFieldRequired, coverField] {} coverOnlyForm
        succeedUpload).failed "book" = [] ∧
    (runCall [bookFieldRequired, coverField] {} coverOnlyForm succeedUpload).status = true ∧
    (getBucket (runCall [bookFieldRequired, coverField] {} coverOnlyForm
        succeedUpload).files "cover").length = 1 := by
  exact ⟨rfl, rfl, rfl, rfl, rfl⟩

/-- C6 amended: the orchestrator never synthesises a per-field failure;
only when zero files are admitted across ALL fields (required or not) is
the store replaced by `Store(message='No files were uploaded')`, with empty
failure buckets and the default `status = true`. -/
theorem c6_amended (fields : List FieldDecl) (g : Config)
    (form : String → List FormValue) (u : FileFieldEntry → SetterValue)
    (h : fields.flatMap (processField g form) = []) :
    runCall fields g form u = { message := "No files were uploaded" } ∧
    (runCall fields g form u).status = true ∧
    ∀ k, getBucket (runCall fields g form u).failed k = [] := by
  have h1 : runCall fields g form u = { message := "No files were uploaded" } := by
    unfold runCall
    rw [h]
    rfl
  refine ⟨h1, by rw [h1], fun k => by rw [h1]; rfl⟩

/-- C6 witness: a required field with an empty form admits nothing, and the
resulting report is the bare message store. -/
theorem c6_witness :
    ([bookFieldRequired].flatMap (processField ({} : Config) emptyForm) = []) ∧
    runCall [bookFieldRequired] {} emptyForm succeedUpload =
      { message := "No files were uploaded" } :=
  ⟨rfl, (c6_amended [bookFieldRequired] {} emptyForm succeedUpload rfl).1⟩

/-- C7 counterexample: with no declared fields the orchestrator's report
has `error = ""` (not "No files were uploaded", which lands in `message`)
and `status = true` (not false). -/
theorem c7_counterexample :
    (runCall [] {} emptyForm succeedUpload).error = "" ∧
    (runCall [] {} emptyForm succeedUpload).status = true ∧
    (runCall [] {} emptyForm succeedUpload).message = "No files were uploaded" := by
  exact ⟨rfl, rfl, rfl⟩

/-- C7 amended: with no declared fields the orchestrator returns
immediately — the result does not depend on the storage engine upload
function at all — a report whose `message` (not `error`) is "No files were
uploaded" and whose `status` keeps its default `true`; the public getter
view then even rewrites that message to the empty string because zero
successes were counted. -/
theorem c7_amended (g : Config) (form : String → List FormValue)
    (u u₂ : FileFieldEntry → SetterValue) :
    runCall [] g form u = { message := "No files were uploaded" } ∧
    runCall [] g form u = runCall [] g form u₂ ∧
    storeGet (runCall [] g form u) = {} := by
  exact ⟨rfl, rfl, rfl⟩

/-- C8: in the multi-file branch the engine returns exactly the per-file
map of `_upload`, so each file's outcome is a function of that file alone
and a sibling's failure cannot change it; folding a mixed outcome list
leaves both the `files` and the `failed` bucket of the field non-empty,
and appending outcomes of other fields or batches changes any bucket only
by that batch's own matching successes. -/
theorem c8_isolation (fieldName dest : String) (fs : List UFile) (fc : Nat)
    (outs₂ : List FileData) (k₂ : String)
    (h2 : 2 ≤ fs.length)
    (hsucc : ∃ f ∈ fs, (localUploadOne fieldName dest f).status = true)
    (hfail : ∃ f ∈ fs, (localUploadOne fieldName dest f).status = false) :
    localEngineUpload fieldName false dest fs
      = .ok (.multiple (fs.map (localUploadOne fieldName dest))) ∧
    getBucket (foldOutcomes fc {} (fs.map (localUploadOne fieldName dest))).files
      fieldName ≠ [] ∧
    getBucket (foldOutcomes fc {} (fs.map (localUploadOne fieldName dest))).failed
      fieldName ≠ [] ∧
    (getBucket (foldOutcomes fc {}
        (fs.map (localUploadOne fieldName dest) ++ outs₂)).files k₂).length
      = (getBucket (foldOutcomes fc {}
          (fs.map (localUploadOne fieldName dest))).files k₂).length
        + (outs₂.filter (fun v => v.status && v.field_name == k₂)).length := by
  refine ⟨?_, ?_, ?_, ?_⟩
  · match fs, h2 with
    | f₁ :: f₂ :: rest, _ => simp [localEngineUpload]
  · rw [← List.length_pos, foldOutcomes_files_length]
    obtain ⟨f, hmem, hst⟩ := hsucc
    have hp : (localUploadOne fieldName dest f) ∈
        (fs.map (localUploadOne fieldName dest)).filter
          (fun v => v.status && v.field_name == fieldName) := by
      rw [List.mem_filter]
      refine ⟨List.mem_map_of_mem _ hmem, ?_⟩
      simp [hst, localUploadOne_field_name]
    have := List.length_pos.mpr (List.ne_nil_of_mem hp)
    omega
  · rw [← List.length_pos, foldOutcomes_failed_length]
    obtain ⟨f, hmem, hst⟩ := hfail
    have hp : (localUploadOne fieldName dest f) ∈
        (fs.map (localUploadOne fieldName dest)).filter
          (fun v => !v.status && v.field_name == fieldName) := by
      rw [List.mem_filter]
      refine ⟨List.mem_map_of_mem _ hmem, ?_⟩
      simp [hst, localUploadOne_field_name]
    have := List.length_pos.mpr (List.ne_nil_of_mem hp)
    omega
  · rw [foldOutcomes_files_length, foldOutcomes_files_length, List.filter_append,
      List.length_append]
    omega

/-- C8 witness: one healthy and one read-failing file for the `book` field
give a normal multi-file engine return and a report with both buckets of
`book` populated. -/
theorem c8_witness :
    2 ≤ ([goodFile, badFile] : List UFile).length ∧
    (∃ f ∈ ([goodFile, badFile] : List UFile),
      (localUploadOne "book" "uploads" f).status = true) ∧
    (∃ f ∈ ([goodFile, badFile] : List UFile),
      (localUploadOne "book" "uploads" f).status = false) ∧
    localEngineUpload "book" false "uploads" [goodFile, badFile]
      = .ok (.multiple ([goodFile, badFile].map (localUploadOne "book" "uploads"))) :=
  ⟨by decide, by decide, by decide,
    (c8_isolation "book" "uploads" [goodFile, badFile] 2 [] "book"
      (by decide) (by decide) (by decide)).1⟩

/-- C9 counterexample: a request whose single processed file fails leaves
`store.file = None` even though the unique outcome of the request sits in
`failed["book"]`, refuting "store.file equals the unique outcome whether
the upload succeeded or failed". -/
theorem c9_counterexample :
    (runCall [bookField] {} oneFileForm failingUpload).file = none ∧
    getBucket (runCall [bookField] {} oneFileForm failingUpload).failed "book" =
      [{ field_name := "book", filename := "a.txt", error := "disk full",
         status := false }] ∧
    storeTotal (runCall [bookField] {} oneFileForm failingUpload) = 1 := by
  exact ⟨rfl, rfl, rfl⟩

/-- C9 amended: when exactly one file is processed, `store.file` is set to
the outcome only if it succeeded; a failed single outcome goes to
`failed[field_name]` and leaves `store.file` unchanged (`None` by default). -/
theorem c9_amended (s : Store) (v w : FileData)
    (hv : v.status = true) (hw : w.status = false) :
    (storeSet 1 s (.fileData v)).file = some v ∧
    (storeSet 1 s (.fileData w)).file = s.file ∧
    w ∈ getBucket (storeSet 1 s (.fileData w)).failed w.field_name := by
  refine ⟨?_, ?_, ?_⟩
  · simp [storeSet, hv]
  · simp [storeSet, hw]
  · rw [storeSet_fileData_failed]
    simp [hw, getBucket_appendBucket_same]

/-- C9 witness: the amended alias law evaluated on one successful and one
failed concrete outcome. -/
theorem c9_witness :
    okOutcome.status = true ∧ badOutcome.status = false ∧
    (storeSet 1 {} (.fileData okOutcome)).file = some okOutcome ∧
    (storeSet 1 {} (.fileData badOutcome)).file = ({} : Store).file :=
  ⟨rfl, rfl, (c9_amended {} okOutcome badOutcome rfl rfl).1,
    (c9_amended {} okOutcome badOutcome rfl rfl).2.1⟩

/-- C10: the baseline `_file_filter` is conjoined before any configured
filter, so a plain string form value, or an upload file with an empty
filename, is never admitted — under every config, including ones whose
filter accepts everything. -/
theorem c10_baseline_admission (cfg : Config) (v : FormValue)
    (h : (∃ s, v = .str s) ∨ ∃ f, v = .file f ∧ f.filename = "") :
    admitted cfg v = false := by
  rcases h with ⟨s, rfl⟩ | ⟨f, rfl, hf⟩
  · rfl
  · simp [admitted, _file_filter, hf]

/-- C10 witness: a plain string form value is rejected even under the
accept-all configured filter. -/
theorem c10_witness :
    ((∃ s, FormValue.str "hello" = .str s) ∨
      ∃ f, FormValue.str "hello" = .file f ∧ f.filename = "") ∧
    acceptAllFilter (.str "hello") = true ∧
    admitted fCfg (.str "hello") = false :=
  ⟨Or.inl ⟨"hello", rfl⟩, rfl,
    c10_baseline_admission fCfg (.str "hello") (Or.inl ⟨"hello", rfl⟩)⟩

end FastStoreModel
